import Mathlib

/-! easy_time: `et::time_point_m`.

A shallow embedding of `include/et_time_point_m.h`.

`time_point_m` wraps one `std::chrono::time_point<high_resolution_clock>`.  The clock's
duration type is `std::chrono::nanoseconds` with a signed 64-bit tick count, so the stored
state is one integer, kept as an `Int` together with the range predicate `in_ll`.

The base struct `base` of `et_base.h` is read by none of the members embedded here, which
use `now_point` only, and is left out.

C++ signed integer arithmetic is only defined while the exact result is representable, and
integer division is only defined for a non-zero divisor.  Every arithmetic step is therefore
embedded as a function into `Except Fault`, where a `Fault` stands for the step at which the
C++ evaluation leaves defined behaviour (signed overflow, or division by zero).  What a caller
may then observe is given by `permits`: the language puts no requirement on it.
-/

namespace et

deriving instance DecidableEq for Except

/-! ## Machine integers -/

/-- Smallest value of `long long`. -/
def LLONG_MIN : Int := -9223372036854775808

/-- Largest value of `long long`. -/
def LLONG_MAX : Int := 9223372036854775807

/-- Representable as a signed 64-bit integer. -/
def in_ll (x : Int) : Prop := LLONG_MIN ≤ x ∧ x ≤ LLONG_MAX

instance (x : Int) : Decidable (in_ll x) := by
  unfold in_ll; infer_instance

/-- The two ways in which `long long` arithmetic leaves defined behaviour. -/
inductive Fault where
  | signed_overflow
  | divide_by_zero
  deriving DecidableEq, Repr

/-- Signed 64-bit addition `a + b`. -/
def ll_add (a b : Int) : Except Fault Int :=
  if in_ll (a + b) then .ok (a + b) else .error .signed_overflow

/-- Signed 64-bit subtraction `a - b`. -/
def ll_sub (a b : Int) : Except Fault Int :=
  if in_ll (a - b) then .ok (a - b) else .error .signed_overflow

/-- Signed 64-bit multiplication `a * b`. -/
def ll_mul (a b : Int) : Except Fault Int :=
  if in_ll (a * b) then .ok (a * b) else .error .signed_overflow

/-- Signed 64-bit division `a / b`: the quotient with the fractional part discarded. -/
def ll_div (a b : Int) : Except Fault Int :=
  if b = 0 then .error .divide_by_zero
  else if in_ll (Int.tdiv a b) then .ok (Int.tdiv a b)
  else .error .signed_overflow

/-! ## What a caller observes -/

/-- What the caller of one call observes: a returned value, or the call ending without one
(a reported error or a trap). -/
inductive Observed (α : Type) where
  | returned (v : α)
  | failed
  deriving DecidableEq, Repr

/-- The observations C++ permits for an evaluation.  A defined evaluation returns its value.
On an evaluation that left defined behaviour the language imposes no requirement: the call
may fail and it may return any value. -/
def permits {α : Type} : Except Fault α → Observed α → Prop
  | .ok v, o => o = .returned v
  | .error _, _ => True

instance {α : Type} [DecidableEq α] (r : Except Fault α) (o : Observed α) :
    Decidable (permits r o) := by
  cases r <;> unfold permits <;> infer_instance

/-! ## The part of `<chrono>` used by the header -/

/-- A tick period in seconds, as the fraction `num / den` (`std::ratio<num, den>`). -/
structure Period where
  num : Int
  den : Int
  deriving DecidableEq, Repr

/-- Quotient of two periods in lowest terms (`std::ratio_divide`). -/
def period_divide (r1 r2 : Period) : Period :=
  let n := r1.num * r2.den
  let d := r1.den * r2.num
  let g : Int := Int.gcd n d
  ⟨Int.sign d * n / g, Int.natAbs d / g⟩

/-- The duration types the header names, lines 16 to 21. -/
inductive time_type where
  | nanoseconds
  | microseconds
  | milliseconds
  | seconds
  | minutes
  | hours
  deriving DecidableEq, Repr

/-- Tick period of each duration type. -/
def time_type.period : time_type → Period
  | .nanoseconds  => ⟨1, 1000000000⟩
  | .microseconds => ⟨1, 1000000⟩
  | .milliseconds => ⟨1, 1000⟩
  | .seconds      => ⟨1, 1⟩
  | .minutes      => ⟨60, 1⟩
  | .hours        => ⟨3600, 1⟩

/-- Modelled from the spec: the tick period of `hrc::duration`, the duration type inside
`tp_hrc`.  `<chrono>` leaves the period of `high_resolution_clock` to the implementation; the
spec fixes the stored value as a signed 64-bit count of nanoseconds. -/
def hrc_period : Period := time_type.nanoseconds.period

/-- Tick-count conversion `std::chrono::duration_cast`: with `cf` the source period divided
by the target period, the count is copied, multiplied by `cf.num`, divided by `cf.den`, or
both, all in signed 64-bit arithmetic. -/
def duration_cast (src dst : Period) (count : Int) : Except Fault Int :=
  let cf := period_divide src dst
  if cf.num = 1 ∧ cf.den = 1 then .ok count
  else if cf.den = 1 then ll_mul count cf.num
  else if cf.num = 1 then ll_div count cf.den
  else do
    let m ← ll_mul count cf.num
    ll_div m cf.den

/-- Comparison `lhs < rhs` of two time points of one clock: their tick counts compared. -/
def tp_lt (lhs rhs : Int) : Bool := decide (lhs < rhs)

/-- Comparison `lhs == rhs` of two time points of one clock. -/
def tp_eq (lhs rhs : Int) : Bool := decide (lhs = rhs)

/-- Comparison `lhs > rhs`, which `<chrono>` defines as `rhs < lhs`. -/
def tp_gt (lhs rhs : Int) : Bool := tp_lt rhs lhs

/-- Comparison `lhs <= rhs`, which `<chrono>` defines as `!(rhs < lhs)`. -/
def tp_le (lhs rhs : Int) : Bool := !tp_lt rhs lhs

/-- Comparison `lhs >= rhs`, which `<chrono>` defines as `!(lhs < rhs)`. -/
def tp_ge (lhs rhs : Int) : Bool := !tp_lt lhs rhs

/-- Decimal rendering `std::to_string(long long)`. -/
def std_to_string (x : Int) : String := toString x

/-! ## `time_point_m` -/

/-- The struct `time_point_m`: its one data member, as the tick count of `now_point`. -/
structure time_point_m where
  now_point : Int
  deriving DecidableEq, Repr

namespace time_point_m

/-- The stored tick count is a `long long`. -/
def wf (a : time_point_m) : Prop := in_ll a.now_point

instance (a : time_point_m) : Decidable a.wf := by
  unfold wf; infer_instance

/-- Constructor `time_point_m(long long nanoseconds)`, line 76. -/
def from_nanoseconds (nanoseconds : Int) : time_point_m :=
  ⟨nanoseconds⟩

/-- Member `to_point<time_type>()`, line 193: the tick count of the cast time point. -/
def to_point (self : time_point_m) (tt : time_type) : Except Fault Int :=
  duration_cast hrc_period tt.period self.now_point

/-- Member `to<time_type>()`, line 182 (`to` is reserved in Lean, hence the underscore). -/
def to_ (self : time_point_m) (tt : time_type) : Except Fault Int :=
  self.to_point tt

/-- Member `to_string()`, line 82. -/
def to_string (self : time_point_m) : Except Fault String := do
  let rv := ""
  let rv := rv ++ ("nano-seconds: " ++ std_to_string (← self.to_ .nanoseconds) ++ "\n")
  let rv := rv ++ ("micro-seconds: " ++ std_to_string (← self.to_ .microseconds) ++ "\n")
  let rv := rv ++ ("milli-seconds: " ++ std_to_string (← self.to_ .milliseconds) ++ "\n")
  let rv := rv ++ ("seconds: " ++ std_to_string (← self.to_ .seconds) ++ "\n")
  let rv := rv ++ ("minutes: " ++ std_to_string (← self.to_ .minutes) ++ "\n")
  let rv := rv ++ ("hours: " ++ std_to_string (← self.to_ .hours) ++ "\n")
  return rv

/-- Member `flat_string()`, line 94. -/
def flat_string (self : time_point_m) : Except Fault String := do
  let rv := ""
  let rv := rv ++ ("nano-seconds: " ++ std_to_string (← self.to_ .nanoseconds) ++ " ")
  let rv := rv ++ ("micro-seconds: " ++ std_to_string (← self.to_ .microseconds) ++ " ")
  let rv := rv ++ ("milli-seconds: " ++ std_to_string (← self.to_ .milliseconds) ++ " ")
  let rv := rv ++ ("seconds: " ++ std_to_string (← self.to_ .seconds) ++ " ")
  let rv := rv ++ ("minutes: " ++ std_to_string (← self.to_ .minutes) ++ " ")
  let rv := rv ++ ("hours: " ++ std_to_string (← self.to_ .hours) ++ " ")
  return rv

/-- Member `operator+`, line 114. -/
def operator_plus (self other : time_point_m) : Except Fault time_point_m := do
  let other_ms ← duration_cast hrc_period time_type.nanoseconds.period other.now_point
  let this_ms ← duration_cast hrc_period time_type.nanoseconds.period self.now_point
  let sum ← ll_add this_ms other_ms
  return from_nanoseconds sum

/-- The literal `static_cast<long long>(1e+6)` of line 126. -/
def million : Int := 1000000

/-- Member `operator+=`, line 121.  The result pairs the new value of `*this` with the
returned copy. -/
def operator_plus_assign (self other : time_point_m) :
    Except Fault (time_point_m × time_point_m) := do
  let other_ns ← duration_cast hrc_period time_type.nanoseconds.period other.now_point
  let this_ns ← duration_cast hrc_period time_type.nanoseconds.period self.now_point
  let diff ← ll_sub this_ns other_ns
  let quot ← ll_div diff million
  let self := from_nanoseconds quot
  return (self, self)

/-- Member `operator-`, line 129. -/
def operator_minus (self other : time_point_m) : Except Fault time_point_m := do
  let diff ← ll_sub self.now_point other.now_point
  let count ← duration_cast hrc_period time_type.nanoseconds.period diff
  return from_nanoseconds count

/-- Member `operator-=`, line 134.  The result pairs the new value of `*this` with the
returned copy. -/
def operator_minus_assign (self other : time_point_m) :
    Except Fault (time_point_m × time_point_m) := do
  let diff ← ll_sub self.now_point other.now_point
  let count ← duration_cast hrc_period time_type.nanoseconds.period diff
  let self := from_nanoseconds count
  return (self, self)

/-- Member `operator*`, line 139. -/
def operator_mul (self : time_point_m) (other : Int) : Except Fault time_point_m := do
  let this_ms ← duration_cast hrc_period time_type.nanoseconds.period self.now_point
  let prod ← ll_mul this_ms other
  return from_nanoseconds prod

/-- Member `operator/`, line 145. -/
def operator_div (self : time_point_m) (other : Int) : Except Fault time_point_m := do
  let this_ms ← duration_cast hrc_period time_type.nanoseconds.period self.now_point
  let quot ← ll_div this_ms other
  return from_nanoseconds quot

/-- Member `operator>`, line 151. -/
def operator_gt (self other : time_point_m) : Bool :=
  tp_gt self.now_point other.now_point

/-- Member `operator>=`, line 156. -/
def operator_ge (self other : time_point_m) : Bool :=
  tp_ge self.now_point other.now_point

/-- Member `operator<`, line 161. -/
def operator_lt (self other : time_point_m) : Bool :=
  tp_lt self.now_point other.now_point

/-- Member `operator<=`, line 166. -/
def operator_le (self other : time_point_m) : Bool :=
  tp_le self.now_point other.now_point

/-- Member `operator==`, line 171. -/
def operator_eq (self other : time_point_m) : Bool :=
  tp_eq self.now_point other.now_point

/-! ### Compound assignment on objects

`operator+=` and `operator-=` take `other` by reference and assign to `*this`, so the two may
be one object.  The functions below run the same statements over an object memory, reading
each operand where the source reads it and storing where the source stores. -/

/-- Object memory: the `time_point_m` stored at each address. -/
abbrev Memory := Nat → time_point_m

/-- Store `v` at address `p`. -/
def Memory.store (mem : Memory) (p : Nat) (v : time_point_m) : Memory :=
  fun q => if q = p then v else mem q

/-- Member `operator+=`, line 121, on the objects at `this` and `other`: the result is the
memory after the assignment and the returned copy of `*this`. -/
def operator_plus_assign_at (mem : Memory) (this other : Nat) :
    Except Fault (Memory × time_point_m) := do
  let other_ns ← duration_cast hrc_period time_type.nanoseconds.period (mem other).now_point
  let this_ns ← duration_cast hrc_period time_type.nanoseconds.period (mem this).now_point
  let diff ← ll_sub this_ns other_ns
  let quot ← ll_div diff million
  let mem := mem.store this (from_nanoseconds quot)
  return (mem, mem this)

/-- Member `operator-=`, line 134, on the objects at `this` and `other`: the result is the
memory after the assignment and the returned copy of `*this`. -/
def operator_minus_assign_at (mem : Memory) (this other : Nat) :
    Except Fault (Memory × time_point_m) := do
  let diff ← ll_sub (mem this).now_point (mem other).now_point
  let count ← duration_cast hrc_period time_type.nanoseconds.period diff
  let mem := mem.store this (from_nanoseconds count)
  return (mem, mem this)

end time_point_m

/-! ## Spec-side vocabulary -/

/-- Spec-side: division truncated toward zero, as the quotient of the magnitudes carrying
the sign of the exact quotient. -/
def trunc_quot (n f : Int) : Int :=
  Int.sign n * Int.sign f * ((n.natAbs / f.natAbs : Nat) : Int)

/-- Spec-side: the lookup table of scale factors relative to nanoseconds. -/
def scale_factor : time_type → Int
  | .nanoseconds  => 1
  | .microseconds => 1000
  | .milliseconds => 1000000
  | .seconds      => 1000000000
  | .minutes      => 60000000000
  | .hours        => 3600000000000

/-- Spec-side: the unit names printed by the two formatters. -/
def unit_name : time_type → String
  | .nanoseconds  => "nano-seconds"
  | .microseconds => "micro-seconds"
  | .milliseconds => "milli-seconds"
  | .seconds      => "seconds"
  | .minutes      => "minutes"
  | .hours        => "hours"

/-- Spec-side: the units in the order the formatters print them. -/
def unit_order : List time_type :=
  [.nanoseconds, .microseconds, .milliseconds, .seconds, .minutes, .hours]

/-- Spec-side: one entry `"<unit-name>: <value>"` for the nanosecond value `n`. -/
def unit_entry (n : Int) (u : time_type) : String :=
  unit_name u ++ ": " ++ std_to_string (trunc_quot n (scale_factor u))

/-- Spec-side: replace every newline of a string by a space. -/
def newlines_to_spaces (s : String) : String :=
  s.map fun c => if c = '\n' then ' ' else c

/-! ## Basic facts -/

theorem trunc_quot_nat (a b : Nat) :
    trunc_quot (a : Int) (b : Int) = ((a / b : Nat) : Int) := by
  unfold trunc_quot
  rcases Nat.eq_zero_or_pos a with rfl | ha
  · simp
  rcases Nat.eq_zero_or_pos b with rfl | hb
  · simp
  have h1 : Int.sign (a : Int) = 1 := Int.sign_eq_one_of_pos (by exact_mod_cast ha)
  have h2 : Int.sign (b : Int) = 1 := Int.sign_eq_one_of_pos (by exact_mod_cast hb)
  simp [h1, h2]

/-- The quotient computed by C++ `/` is the sign-magnitude quotient of the spec. -/
theorem tdiv_eq_trunc_quot (n f : Int) : Int.tdiv n f = trunc_quot n f := by
  have key : ∀ a b : Nat, Int.tdiv (a : Int) (b : Int) = trunc_quot (a : Int) (b : Int) := by
    intro a b
    rw [trunc_quot_nat]; rfl
  rcases Int.eq_nat_or_neg n with ⟨a, rfl | rfl⟩ <;>
  rcases Int.eq_nat_or_neg f with ⟨b, rfl | rfl⟩
  · exact key a b
  · rw [Int.tdiv_neg, key]; simp [trunc_quot]
  · rw [Int.neg_tdiv, key]; simp [trunc_quot]
  · rw [Int.neg_tdiv_neg, key]; simp [trunc_quot]

/-- A quotient of a `long long` is a `long long`, the pair `LLONG_MIN / -1` apart. -/
theorem tdiv_in_ll (a k : Int) (ha : in_ll a) (hk : k ≠ 0)
    (hx : ¬ (a = LLONG_MIN ∧ k = -1)) : in_ll (Int.tdiv a k) := by
  unfold in_ll LLONG_MIN LLONG_MAX at *
  have h1 : (Int.tdiv a k).natAbs = a.natAbs / k.natAbs := Int.natAbs_tdiv a k
  by_cases hk1 : k = 1
  · subst hk1; rw [Int.tdiv_one]; exact ha
  by_cases hk2 : k = -1
  · subst hk2
    have : Int.tdiv a (-1) = -a := by rw [Int.tdiv_neg, Int.tdiv_one]
    rw [this]; omega
  have h2 : a.natAbs / k.natAbs ≤ a.natAbs / 2 :=
    Nat.div_le_div_left (by omega) (by omega)
  omega

theorem ll_add_ok (a b : Int) (h : in_ll (a + b)) : ll_add a b = .ok (a + b) := by
  simp [ll_add, h]

theorem ll_sub_ok (a b : Int) (h : in_ll (a - b)) : ll_sub a b = .ok (a - b) := by
  simp [ll_sub, h]

theorem ll_mul_ok (a b : Int) (h : in_ll (a * b)) : ll_mul a b = .ok (a * b) := by
  simp [ll_mul, h]

theorem ll_div_ok (a k : Int) (ha : in_ll a) (hk : k ≠ 0)
    (hx : ¬ (a = LLONG_MIN ∧ k = -1)) : ll_div a k = .ok (Int.tdiv a k) := by
  simp [ll_div, hk, tdiv_in_ll a k ha hk hx]

theorem ll_div_zero (a : Int) : ll_div a 0 = .error .divide_by_zero := by
  simp [ll_div]

theorem map_ok_iff {α β : Type} (f : α → β) (x : Except Fault α) :
    (∃ r, x.map f = .ok r) ↔ ∃ v, x = .ok v := by
  cases x with
  | error e => simp [Except.map]
  | ok v => simp [Except.map]

theorem ll_add_ok_iff (a b : Int) : (∃ v, ll_add a b = .ok v) ↔ in_ll (a + b) := by
  unfold ll_add; split <;> simp [*]

theorem ll_sub_ok_iff (a b : Int) : (∃ v, ll_sub a b = .ok v) ↔ in_ll (a - b) := by
  unfold ll_sub; split <;> simp [*]

theorem ll_mul_ok_iff (a b : Int) : (∃ v, ll_mul a b = .ok v) ↔ in_ll (a * b) := by
  unfold ll_mul; split <;> simp [*]

theorem ll_div_ok_iff (a k : Int) (ha : in_ll a) :
    (∃ v, ll_div a k = .ok v) ↔ (k ≠ 0 ∧ ¬ (a = LLONG_MIN ∧ k = -1)) := by
  constructor
  · rintro ⟨v, hv⟩
    refine ⟨?_, ?_⟩
    · rintro rfl
      rw [ll_div_zero] at hv; cases hv
    · rintro ⟨rfl, rfl⟩
      have hmin : ll_div LLONG_MIN (-1) = .error .signed_overflow := by decide
      rw [hmin] at hv; cases hv
  · rintro ⟨hk, hx⟩
    exact ⟨_, ll_div_ok a k ha hk hx⟩

/-- From the clock period to each unit the conversion factor is one over the table entry. -/
theorem period_divide_hrc (tt : time_type) :
    period_divide hrc_period tt.period = ⟨1, scale_factor tt⟩ := by
  cases tt <;> decide

theorem scale_factor_pos (tt : time_type) : 0 < scale_factor tt := by
  cases tt <;> decide

/-- Casting the clock's own duration to nanoseconds copies the tick count. -/
theorem duration_cast_nanoseconds (c : Int) :
    duration_cast hrc_period time_type.nanoseconds.period c = .ok c := by
  simp [duration_cast, period_divide_hrc, scale_factor]

/-- Casting to any unit divides the tick count by the table entry. -/
theorem duration_cast_hrc (tt : time_type) (c : Int) (hc : in_ll c) :
    duration_cast hrc_period tt.period c = .ok (Int.tdiv c (scale_factor tt)) := by
  have hpos := scale_factor_pos tt
  by_cases h1 : scale_factor tt = 1
  · simp [duration_cast, period_divide_hrc, h1]
  · have hdiv : ll_div c (scale_factor tt) = .ok (Int.tdiv c (scale_factor tt)) :=
      ll_div_ok c _ hc (by omega) (by intro h; omega)
    simp [duration_cast, period_divide_hrc, h1, hdiv]

namespace time_point_m

theorem to_eq (a : time_point_m) (tt : time_type) (ha : a.wf) :
    a.to_ tt = .ok (Int.tdiv a.now_point (scale_factor tt)) :=
  duration_cast_hrc tt a.now_point ha

theorem to_nanoseconds (a : time_point_m) : a.to_ .nanoseconds = .ok a.now_point :=
  duration_cast_nanoseconds a.now_point

theorem operator_minus_eq (a b : time_point_m) (h : in_ll (a.now_point - b.now_point)) :
    a.operator_minus b = .ok (from_nanoseconds (a.now_point - b.now_point)) := by
  simp [operator_minus, ll_sub_ok _ _ h, duration_cast_nanoseconds, bind, Except.bind, pure,
    Except.pure]

theorem operator_minus_assign_eq (a b : time_point_m)
    (h : in_ll (a.now_point - b.now_point)) :
    a.operator_minus_assign b = .ok (from_nanoseconds (a.now_point - b.now_point),
      from_nanoseconds (a.now_point - b.now_point)) := by
  simp [operator_minus_assign, ll_sub_ok _ _ h, duration_cast_nanoseconds, bind, Except.bind,
    pure, Except.pure]

end time_point_m

namespace time_point_m

theorem operator_plus_eq (a b : time_point_m) :
    a.operator_plus b =
      (ll_add a.now_point b.now_point).map from_nanoseconds := by
  simp only [operator_plus, duration_cast_nanoseconds, bind, Except.bind, pure, Except.pure]
  cases ll_add a.now_point b.now_point <;> rfl

theorem operator_plus_assign_eq (a b : time_point_m) :
    a.operator_plus_assign b =
      (ll_sub a.now_point b.now_point >>= fun d => ll_div d million).map
        (fun q => (from_nanoseconds q, from_nanoseconds q)) := by
  simp only [operator_plus_assign, duration_cast_nanoseconds, bind, Except.bind, pure,
    Except.pure]
  cases ll_sub a.now_point b.now_point with
  | error e => rfl
  | ok d => cases ll_div d million <;> rfl

theorem operator_mul_eq (a : time_point_m) (k : Int) :
    a.operator_mul k = (ll_mul a.now_point k).map from_nanoseconds := by
  simp only [operator_mul, duration_cast_nanoseconds, bind, Except.bind, pure, Except.pure]
  cases ll_mul a.now_point k <;> rfl

theorem operator_div_eq (a : time_point_m) (k : Int) :
    a.operator_div k = (ll_div a.now_point k).map from_nanoseconds := by
  simp only [operator_div, duration_cast_nanoseconds, bind, Except.bind, pure, Except.pure]
  cases ll_div a.now_point k <;> rfl

theorem to_string_ok (a : time_point_m) (ha : a.wf) : ∃ s, a.to_string = .ok s := by
  simp [to_string, to_eq a _ ha, bind, Except.bind, pure, Except.pure]

theorem flat_string_ok (a : time_point_m) (ha : a.wf) : ∃ s, a.flat_string = .ok s := by
  simp [flat_string, to_eq a _ ha, bind, Except.bind, pure, Except.pure]

theorem operator_plus_assign_ok_iff (a b : time_point_m) :
    (∃ p, a.operator_plus_assign b = .ok p) ↔ in_ll (a.now_point - b.now_point) := by
  rw [operator_plus_assign_eq, map_ok_iff]
  constructor
  · rintro ⟨v, hv⟩
    by_cases h : in_ll (a.now_point - b.now_point)
    · exact h
    · simp [ll_sub, h, bind, Except.bind] at hv
  · intro h
    refine ⟨Int.tdiv (a.now_point - b.now_point) million, ?_⟩
    rw [ll_sub_ok _ _ h]
    have hm : million ≠ 0 := by decide
    have hm1 : ¬ million = -1 := by decide
    exact ll_div_ok _ million h hm (fun h => hm1 h.2)

theorem operator_minus_ok_iff (a b : time_point_m) :
    (∃ r, a.operator_minus b = .ok r) ↔ in_ll (a.now_point - b.now_point) := by
  constructor
  · rintro ⟨v, hv⟩
    by_cases h : in_ll (a.now_point - b.now_point)
    · exact h
    · simp [operator_minus, ll_sub, h, bind, Except.bind] at hv
  · intro h
    exact ⟨_, operator_minus_eq a b h⟩

theorem operator_minus_assign_ok_iff (a b : time_point_m) :
    (∃ p, a.operator_minus_assign b = .ok p) ↔ in_ll (a.now_point - b.now_point) := by
  constructor
  · rintro ⟨v, hv⟩
    by_cases h : in_ll (a.now_point - b.now_point)
    · exact h
    · simp [operator_minus_assign, ll_sub, h, bind, Except.bind] at hv
  · intro h
    exact ⟨_, operator_minus_assign_eq a b h⟩

end time_point_m

/-! ## Claims -/

/-- C1: when the exact difference of the two nanosecond values fits in a signed 64-bit
integer, `operator-` returns an instant holding that difference, and `operator-=` stores the
same instant in its left operand and returns it; 5000 ns minus 2000 ns is 3000 ns by both. -/
theorem C1_subtract (a b : time_point_m) (_ha : a.wf) (_hb : b.wf)
    (hd : in_ll (a.now_point - b.now_point)) :
    (∃ r, a.operator_minus b = .ok r ∧ r.wf ∧
        r.to_ .nanoseconds = .ok (a.now_point - b.now_point) ∧
        a.operator_minus_assign b = .ok (r, r)) ∧
      (time_point_m.from_nanoseconds 5000).operator_minus
          (time_point_m.from_nanoseconds 2000) = .ok (time_point_m.from_nanoseconds 3000) ∧
      (time_point_m.from_nanoseconds 5000).operator_minus_assign
          (time_point_m.from_nanoseconds 2000) =
        .ok (time_point_m.from_nanoseconds 3000, time_point_m.from_nanoseconds 3000) := by
  refine ⟨⟨time_point_m.from_nanoseconds (a.now_point - b.now_point),
    time_point_m.operator_minus_eq a b hd, hd, time_point_m.to_nanoseconds _,
    time_point_m.operator_minus_assign_eq a b hd⟩, by decide, by decide⟩

theorem C1_subtract_witness :
    (time_point_m.from_nanoseconds (-7)).wf ∧
    (time_point_m.from_nanoseconds 9223372036854775800).wf ∧
    in_ll (-7 - 9223372036854775800) ∧
    (∃ r, (time_point_m.from_nanoseconds (-7)).operator_minus
          (time_point_m.from_nanoseconds 9223372036854775800) = .ok r ∧ r.wf ∧
        r.to_ .nanoseconds = .ok (-7 - 9223372036854775800) ∧
        (time_point_m.from_nanoseconds (-7)).operator_minus_assign
          (time_point_m.from_nanoseconds 9223372036854775800) = .ok (r, r)) :=
  ⟨by decide, by decide, by decide,
    (C1_subtract (time_point_m.from_nanoseconds (-7))
      (time_point_m.from_nanoseconds 9223372036854775800)
      (by decide) (by decide) (by decide)).1⟩

/-- C2: for every signed 64-bit nanosecond count `n` and every unit, `to<unit>()` succeeds
and returns `n` divided by the unit's scale factor (1, 1000, 10^6, 10^9, 6*10^10,
3.6*10^12), truncated toward zero, also for negative `n`: -1500 ns is -1 microsecond, and
3661000000000 ns is 3661 seconds, 61 minutes and 1 hour. -/
theorem C2_convert_truncates (n : Int) (hn : in_ll n) (tt : time_type) :
    (time_point_m.from_nanoseconds n).to_ tt = .ok (trunc_quot n (scale_factor tt)) ∧
      (time_point_m.from_nanoseconds (-1500)).to_ .microseconds = .ok (-1) ∧
      (time_point_m.from_nanoseconds 3661000000000).to_ .seconds = .ok 3661 ∧
      (time_point_m.from_nanoseconds 3661000000000).to_ .minutes = .ok 61 ∧
      (time_point_m.from_nanoseconds 3661000000000).to_ .hours = .ok 1 := by
  refine ⟨?_, by decide, by decide, by decide, by decide⟩
  rw [← tdiv_eq_trunc_quot]
  exact time_point_m.to_eq (time_point_m.from_nanoseconds n) tt hn

theorem C2_convert_truncates_witness :
    in_ll (-9223372036854775808) ∧
      (time_point_m.from_nanoseconds (-9223372036854775808)).to_ .minutes =
        .ok (trunc_quot (-9223372036854775808) (scale_factor .minutes)) ∧
      trunc_quot (-9223372036854775808) (scale_factor .minutes) = -153722867 :=
  ⟨by decide,
    (C2_convert_truncates (-9223372036854775808) (by decide) .minutes).1,
    by decide⟩

/-- C3: round trip. An instant constructed from any signed 64-bit nanosecond count `n`,
negative counts and the two extreme values included, converts back to exactly `n`. -/
theorem C3_round_trip (n : Int) (_hn : in_ll n) :
    (time_point_m.from_nanoseconds n).to_ .nanoseconds = .ok n ∧
      (time_point_m.from_nanoseconds LLONG_MIN).to_ .nanoseconds = .ok LLONG_MIN ∧
      (time_point_m.from_nanoseconds LLONG_MAX).to_ .nanoseconds = .ok LLONG_MAX :=
  ⟨time_point_m.to_nanoseconds _, time_point_m.to_nanoseconds _,
    time_point_m.to_nanoseconds _⟩

theorem C3_round_trip_witness :
    in_ll (-42) ∧ (time_point_m.from_nanoseconds (-42)).to_ .nanoseconds = .ok (-42) :=
  ⟨by decide, (C3_round_trip (-42) (by decide)).1⟩

/-- C4: on instants built from nanosecond counts, each of `>`, `>=`, `<`, `<=`, `==` returns
the result of the same comparison of the two counts; so exactly one of `a < b`, `a == b`,
`a > b` holds, `a <= b` is the negation of `a > b`, `a >= b` is the negation of `a < b`, and
`<` is transitive. -/
theorem C4_comparisons (x y z : Int) (_hx : in_ll x) (_hy : in_ll y) (_hz : in_ll z) :
    let a := time_point_m.from_nanoseconds x
    let b := time_point_m.from_nanoseconds y
    let c := time_point_m.from_nanoseconds z
    (a.operator_gt b = decide (x > y) ∧ a.operator_ge b = decide (x ≥ y) ∧
        a.operator_lt b = decide (x < y) ∧ a.operator_le b = decide (x ≤ y) ∧
        a.operator_eq b = decide (x = y)) ∧
      ((a.operator_lt b = true ∧ a.operator_eq b = false ∧ a.operator_gt b = false) ∨
        (a.operator_lt b = false ∧ a.operator_eq b = true ∧ a.operator_gt b = false) ∨
        (a.operator_lt b = false ∧ a.operator_eq b = false ∧ a.operator_gt b = true)) ∧
      a.operator_le b = !(a.operator_gt b) ∧
      a.operator_ge b = !(a.operator_lt b) ∧
      (a.operator_lt b = true → b.operator_lt c = true → a.operator_lt c = true) ∧
      (x < y → y < z →
        a.operator_lt b = true ∧ b.operator_lt c = true ∧ a.operator_lt c = true ∧
        c.operator_gt b = true ∧ b.operator_gt a = true ∧ c.operator_gt a = true ∧
        a.operator_le b = true ∧ c.operator_ge a = true ∧ a.operator_eq c = false) := by
  intro a b c
  have hlt : ∀ p q : Int, tp_lt p q = decide (p < q) := fun _ _ => rfl
  have heq : ∀ p q : Int, tp_eq p q = decide (p = q) := fun _ _ => rfl
  have hgt : ∀ p q : Int, tp_gt p q = decide (p > q) := fun _ _ => rfl
  have hle : ∀ p q : Int, tp_le p q = decide (p ≤ q) := by
    intro p q
    by_cases h : p ≤ q
    · have h2 : ¬ q < p := by omega
      simp [tp_le, tp_lt, h, h2]
    · have h2 : q < p := by omega
      simp [tp_le, tp_lt, h, h2]
  have hge : ∀ p q : Int, tp_ge p q = decide (p ≥ q) := by
    intro p q
    by_cases h : p ≥ q
    · have h2 : ¬ p < q := by omega
      simp [tp_ge, tp_lt, h, h2]
    · have h2 : p < q := by omega
      simp [tp_ge, tp_lt, h, h2]
  refine ⟨⟨hgt x y, hge x y, hlt x y, hle x y, heq x y⟩, ?_, ?_, ?_, ?_, ?_⟩ <;>
    simp only [a, b, c, time_point_m.operator_gt, time_point_m.operator_ge,
      time_point_m.operator_lt, time_point_m.operator_le, time_point_m.operator_eq,
      time_point_m.from_nanoseconds, hlt, heq, hgt, hle, hge]
  · rcases lt_trichotomy x y with h | h | h
    · left; simp only [decide_eq_true_eq, decide_eq_false_iff_not]; omega
    · right; left; simp only [decide_eq_true_eq, decide_eq_false_iff_not]; omega
    · right; right; simp only [decide_eq_true_eq, decide_eq_false_iff_not]; omega
  · by_cases h : x ≤ y
    · have h2 : ¬ x > y := by omega
      simp [h, h2]
    · have h2 : x > y := by omega
      simp [h, h2]
  · by_cases h : x < y
    · have h2 : ¬ x ≥ y := by omega
      simp [h, h2]
    · have h2 : x ≥ y := by omega
      simp [h, h2]
  · simp only [decide_eq_true_eq]; omega
  · intro h1 h2
    simp only [decide_eq_true_eq, decide_eq_false_iff_not]; omega

theorem C4_comparisons_witness :
    in_ll (-5) ∧ in_ll 0 ∧ in_ll 9 ∧
      (time_point_m.from_nanoseconds (-5)).operator_lt (time_point_m.from_nanoseconds 0)
        = true ∧
      (time_point_m.from_nanoseconds 0).operator_lt (time_point_m.from_nanoseconds 9)
        = true ∧
      (time_point_m.from_nanoseconds (-5)).operator_lt (time_point_m.from_nanoseconds 9)
        = true :=
  ⟨by decide, by decide, by decide, by decide, by decide,
    (C4_comparisons (-5) 0 9 (by decide) (by decide) (by decide)).2.2.2.2.1
      (by decide) (by decide)⟩

/-- C5: when the exact sum of the two nanosecond values fits in a signed 64-bit integer,
`operator+` returns an instant holding exactly that sum, neither clamped nor validated.  The
operator is a `const` member taking a `const` reference: it is a function of the two values
and has no other effect, so both operands keep their values. -/
theorem C5_add (a b : time_point_m) (_ha : a.wf) (_hb : b.wf)
    (hs : in_ll (a.now_point + b.now_point)) :
    ∃ r, a.operator_plus b = .ok r ∧ r.wf ∧
      r = time_point_m.from_nanoseconds (a.now_point + b.now_point) ∧
      r.to_ .nanoseconds = .ok (a.now_point + b.now_point) := by
  refine ⟨time_point_m.from_nanoseconds (a.now_point + b.now_point), ?_, hs, rfl,
    time_point_m.to_nanoseconds _⟩
  rw [time_point_m.operator_plus_eq, ll_add_ok _ _ hs]; rfl

theorem C5_add_witness :
    (time_point_m.from_nanoseconds 9223372036854775000).wf ∧
    (time_point_m.from_nanoseconds (-9223372036854775808)).wf ∧
    in_ll (9223372036854775000 + -9223372036854775808) ∧
    (∃ r, (time_point_m.from_nanoseconds 9223372036854775000).operator_plus
          (time_point_m.from_nanoseconds (-9223372036854775808)) = .ok r ∧ r.wf ∧
        r = time_point_m.from_nanoseconds (9223372036854775000 + -9223372036854775808) ∧
        r.to_ .nanoseconds = .ok (9223372036854775000 + -9223372036854775808)) :=
  ⟨by decide, by decide, by decide,
    C5_add (time_point_m.from_nanoseconds 9223372036854775000)
      (time_point_m.from_nanoseconds (-9223372036854775808))
      (by decide) (by decide) (by decide)⟩

/-- C6: when the exact difference of the two nanosecond values fits in a signed 64-bit
integer, `operator+=` stores that difference divided by 1000000, truncated toward zero, as
the new nanosecond value of its left operand and returns that instant; it does not store the
sum.  5000000 ns and 1000000 ns leave 4 ns; 0 ns and 1500000 ns leave -1 ns. -/
theorem C6_add_assign (a b : time_point_m) (_ha : a.wf) (_hb : b.wf)
    (hd : in_ll (a.now_point - b.now_point)) :
    (∃ r, a.operator_plus_assign b = .ok (r, r) ∧ r.wf ∧
        r.to_ .nanoseconds = .ok (trunc_quot (a.now_point - b.now_point) 1000000)) ∧
      (time_point_m.from_nanoseconds 5000000).operator_plus_assign
          (time_point_m.from_nanoseconds 1000000) =
        .ok (time_point_m.from_nanoseconds 4, time_point_m.from_nanoseconds 4) ∧
      (time_point_m.from_nanoseconds 0).operator_plus_assign
          (time_point_m.from_nanoseconds 1500000) =
        .ok (time_point_m.from_nanoseconds (-1), time_point_m.from_nanoseconds (-1)) := by
  refine ⟨?_, by decide, by decide⟩
  have hq : ll_div (a.now_point - b.now_point) time_point_m.million =
      .ok (Int.tdiv (a.now_point - b.now_point) time_point_m.million) :=
    ll_div_ok _ _ hd (by decide) (by intro h; exact absurd h.2 (by decide))
  have hw : in_ll (Int.tdiv (a.now_point - b.now_point) time_point_m.million) :=
    tdiv_in_ll _ _ hd (by decide) (by intro h; exact absurd h.2 (by decide))
  refine ⟨time_point_m.from_nanoseconds (Int.tdiv (a.now_point - b.now_point) time_point_m.million),
    ?_, hw, ?_⟩
  · rw [time_point_m.operator_plus_assign_eq, ll_sub_ok _ _ hd]
    show Except.map _ (ll_div (a.now_point - b.now_point) time_point_m.million) = _
    rw [hq]; rfl
  · rw [time_point_m.to_nanoseconds, tdiv_eq_trunc_quot]; rfl

theorem C6_add_assign_witness :
    (time_point_m.from_nanoseconds (-2999999)).wf ∧
    (time_point_m.from_nanoseconds 1).wf ∧
    in_ll (-2999999 - 1) ∧
    (∃ r, (time_point_m.from_nanoseconds (-2999999)).operator_plus_assign
          (time_point_m.from_nanoseconds 1) = .ok (r, r) ∧ r.wf ∧
        r.to_ .nanoseconds = .ok (trunc_quot (-2999999 - 1) 1000000)) ∧
    trunc_quot (-2999999 - 1) 1000000 = -3 :=
  ⟨by decide, by decide, by decide,
    (C6_add_assign (time_point_m.from_nanoseconds (-2999999))
      (time_point_m.from_nanoseconds 1) (by decide) (by decide) (by decide)).1,
    by decide⟩

/-- C7: when the exact product of the nanosecond value and the signed 64-bit scalar fits in
a signed 64-bit integer, `operator*` returns an instant holding that product; 100 ns times 3
is 300 ns. -/
theorem C7_multiply (a : time_point_m) (k : Int) (_ha : a.wf) (_hk : in_ll k)
    (hp : in_ll (a.now_point * k)) :
    (∃ r, a.operator_mul k = .ok r ∧ r.wf ∧
        r.to_ .nanoseconds = .ok (a.now_point * k)) ∧
      (time_point_m.from_nanoseconds 100).operator_mul 3 =
        .ok (time_point_m.from_nanoseconds 300) := by
  refine ⟨⟨time_point_m.from_nanoseconds (a.now_point * k), ?_, hp,
    time_point_m.to_nanoseconds _⟩, by decide⟩
  rw [time_point_m.operator_mul_eq, ll_mul_ok _ _ hp]; rfl

theorem C7_multiply_witness :
    (time_point_m.from_nanoseconds (-4611686018427387904)).wf ∧ in_ll 2 ∧
    in_ll (-4611686018427387904 * 2) ∧
    (∃ r, (time_point_m.from_nanoseconds (-4611686018427387904)).operator_mul 2 = .ok r ∧
        r.wf ∧ r.to_ .nanoseconds = .ok (-4611686018427387904 * 2)) :=
  ⟨by decide, by decide, by decide,
    (C7_multiply (time_point_m.from_nanoseconds (-4611686018427387904)) 2
      (by decide) (by decide) (by decide)).1⟩

/-- C8: for a non-zero signed 64-bit scalar `k`, the pair `(-2^63, -1)` excluded,
`operator/` returns an instant holding the nanosecond value divided by `k`, truncated toward
zero whatever the signs; 100 ns by 3 is 33 ns and -100 ns by 3 is -33 ns. -/
theorem C8_divide (a : time_point_m) (k : Int) (ha : a.wf) (_hk : in_ll k) (hk0 : k ≠ 0)
    (hx : ¬ (a.now_point = LLONG_MIN ∧ k = -1)) :
    (∃ r, a.operator_div k = .ok r ∧ r.wf ∧
        r.to_ .nanoseconds = .ok (trunc_quot a.now_point k)) ∧
      (time_point_m.from_nanoseconds 100).operator_div 3 =
        .ok (time_point_m.from_nanoseconds 33) ∧
      (time_point_m.from_nanoseconds (-100)).operator_div 3 =
        .ok (time_point_m.from_nanoseconds (-33)) ∧
      (time_point_m.from_nanoseconds 100).operator_div (-3) =
        .ok (time_point_m.from_nanoseconds (-33)) ∧
      (time_point_m.from_nanoseconds (-100)).operator_div (-3) =
        .ok (time_point_m.from_nanoseconds 33) := by
  refine ⟨⟨time_point_m.from_nanoseconds (Int.tdiv a.now_point k), ?_,
    tdiv_in_ll _ _ ha hk0 hx, ?_⟩, by decide, by decide, by decide, by decide⟩
  · rw [time_point_m.operator_div_eq, ll_div_ok _ _ ha hk0 hx]; rfl
  · rw [time_point_m.to_nanoseconds, tdiv_eq_trunc_quot]; rfl

theorem C8_divide_witness :
    (time_point_m.from_nanoseconds (-9223372036854775808)).wf ∧ in_ll (-7) ∧
    (-7 : Int) ≠ 0 ∧
    ¬ ((time_point_m.from_nanoseconds (-9223372036854775808)).now_point = LLONG_MIN ∧
      (-7 : Int) = -1) ∧
    (∃ r, (time_point_m.from_nanoseconds (-9223372036854775808)).operator_div (-7) = .ok r ∧
        r.wf ∧ r.to_ .nanoseconds = .ok (trunc_quot (-9223372036854775808) (-7))) ∧
    trunc_quot (-9223372036854775808) (-7) = 1317624576693539401 :=
  ⟨by decide, by decide, by decide, by decide,
    (C8_divide (time_point_m.from_nanoseconds (-9223372036854775808)) (-7)
      (by decide) (by decide) (by decide) (by decide)).1,
    by decide⟩

/-- A defined evaluation permits one observation only: its value returned. -/
theorem permits_ok {α : Type} (v : α) (o : Observed α) :
    permits (Except.ok v : Except Fault α) o ↔ o = .returned v :=
  Iff.rfl

/-- C9, as stated, fails: `operator/` has no guard, so dividing 7 ns by the scalar 0 runs
the integer division `7 / 0` and leaves defined behaviour there.  Nothing then makes the call
fail: returning an instant, such as 0 ns, is among the permitted observations, so it is not
true that every permitted observation is a failure. -/
theorem C9_divide_by_zero_counterexample :
    (time_point_m.from_nanoseconds 7).wf ∧
    (time_point_m.from_nanoseconds 7).operator_div 0 = .error .divide_by_zero ∧
    permits ((time_point_m.from_nanoseconds 7).operator_div 0)
      (.returned (time_point_m.from_nanoseconds 0)) ∧
    ¬ (∀ o, permits ((time_point_m.from_nanoseconds 7).operator_div 0) o →
      o = .failed) := by
  refine ⟨by decide, by decide, by decide, ?_⟩
  intro h
  have h0 := h (.returned (time_point_m.from_nanoseconds 0)) (by decide)
  cases h0

/-- C9, amended: for every instant, dividing by the scalar 0 has no defined result.
`operator/` performs the integer division with no guard, the evaluation leaves defined
behaviour at the division by zero and so yields no instant as its value; no error is reported
and no failure is guaranteed, every observation being permitted. -/
theorem C9_divide_by_zero_amended (a : time_point_m) :
    a.operator_div 0 = .error .divide_by_zero ∧ (∀ r, a.operator_div 0 ≠ .ok r) ∧
      ∀ o, permits (a.operator_div 0) o := by
  have h : a.operator_div 0 = .error .divide_by_zero := by
    rw [time_point_m.operator_div_eq, ll_div_zero]; rfl
  refine ⟨h, ?_, ?_⟩
  · intro r hr
    rw [h] at hr
    cases hr
  · intro o
    rw [h]
    trivial

/-- C10, as stated, fails: the operators apart from division by zero are not total on the
signed 64-bit range.  The sum of `LLONG_MAX` ns and 1 ns, the difference of `LLONG_MIN` ns
and 1 ns (by `-`, `-=` and `+=`), the product of `LLONG_MAX` ns and 2, and the quotient of
`LLONG_MIN` ns by -1 all overflow. -/
theorem C10_total_counterexample :
    (time_point_m.from_nanoseconds LLONG_MAX).wf ∧
    (time_point_m.from_nanoseconds LLONG_MIN).wf ∧
    (time_point_m.from_nanoseconds 1).wf ∧ in_ll 2 ∧ in_ll (-1) ∧ (-1 : Int) ≠ 0 ∧
    (time_point_m.from_nanoseconds LLONG_MAX).operator_plus
        (time_point_m.from_nanoseconds 1) = .error .signed_overflow ∧
    (time_point_m.from_nanoseconds LLONG_MIN).operator_minus
        (time_point_m.from_nanoseconds 1) = .error .signed_overflow ∧
    (time_point_m.from_nanoseconds LLONG_MIN).operator_minus_assign
        (time_point_m.from_nanoseconds 1) = .error .signed_overflow ∧
    (time_point_m.from_nanoseconds LLONG_MIN).operator_plus_assign
        (time_point_m.from_nanoseconds 1) = .error .signed_overflow ∧
    (time_point_m.from_nanoseconds LLONG_MAX).operator_mul 2 = .error .signed_overflow ∧
    (time_point_m.from_nanoseconds LLONG_MIN).operator_div (-1) =
      .error .signed_overflow := by
  decide

/-- C10, amended: on instants holding signed 64-bit values and a signed 64-bit scalar, each
arithmetic operator yields a result exactly when its exact integer result fits in a signed
64-bit integer: the sum for `+`, the difference for `+=`, `-` and `-=`, the product for `*`,
and for `/` a non-zero scalar other than the pair `(-2^63, -1)`.  `to<unit>()` for every
unit yields a signed 64-bit value, and `to_string` and `flat_string` yield a string, for
every instant.  The five comparisons return a `bool` for every pair of instants, which
their embedding as functions into `Bool` carries. -/
theorem C10_total_amended (a b : time_point_m) (k : Int) (ha : a.wf) (_hb : b.wf)
    (_hk : in_ll k) :
    ((∃ r, a.operator_plus b = .ok r) ↔ in_ll (a.now_point + b.now_point)) ∧
    ((∃ p, a.operator_plus_assign b = .ok p) ↔ in_ll (a.now_point - b.now_point)) ∧
    ((∃ r, a.operator_minus b = .ok r) ↔ in_ll (a.now_point - b.now_point)) ∧
    ((∃ p, a.operator_minus_assign b = .ok p) ↔ in_ll (a.now_point - b.now_point)) ∧
    ((∃ r, a.operator_mul k = .ok r) ↔ in_ll (a.now_point * k)) ∧
    ((∃ r, a.operator_div k = .ok r) ↔ (k ≠ 0 ∧ ¬ (a.now_point = LLONG_MIN ∧ k = -1))) ∧
    (∀ tt, ∃ v, a.to_ tt = .ok v ∧ in_ll v) ∧
    (∃ s, a.to_string = .ok s) ∧ (∃ s, a.flat_string = .ok s) := by
  refine ⟨?_, time_point_m.operator_plus_assign_ok_iff a b,
    time_point_m.operator_minus_ok_iff a b, time_point_m.operator_minus_assign_ok_iff a b,
    ?_, ?_, ?_, time_point_m.to_string_ok a ha, time_point_m.flat_string_ok a ha⟩
  · rw [time_point_m.operator_plus_eq, map_ok_iff, ll_add_ok_iff]
  · rw [time_point_m.operator_mul_eq, map_ok_iff, ll_mul_ok_iff]
  · rw [time_point_m.operator_div_eq, map_ok_iff, ll_div_ok_iff _ _ ha]
  · intro tt
    refine ⟨_, time_point_m.to_eq a tt ha, ?_⟩
    have hpos := scale_factor_pos tt
    exact tdiv_in_ll _ _ ha (by omega) (by intro h; omega)

theorem C10_total_amended_witness :
    (time_point_m.from_nanoseconds LLONG_MIN).wf ∧
    (time_point_m.from_nanoseconds (-1)).wf ∧ in_ll 1 ∧
    (∃ r, (time_point_m.from_nanoseconds LLONG_MIN).operator_minus
        (time_point_m.from_nanoseconds (-1)) = .ok r) ∧
    (∃ v, (time_point_m.from_nanoseconds LLONG_MIN).to_ .hours = .ok v ∧ in_ll v) ∧
    (∃ s, (time_point_m.from_nanoseconds LLONG_MIN).flat_string = .ok s) :=
  have h := C10_total_amended (time_point_m.from_nanoseconds LLONG_MIN)
    (time_point_m.from_nanoseconds (-1)) 1 (by decide) (by decide) (by decide)
  ⟨by decide, by decide, by decide, h.2.2.1.mpr (by decide), h.2.2.2.2.2.2.1 .hours,
    h.2.2.2.2.2.2.2.2⟩

/-! ## Rendering facts -/

theorem unit_label (u : time_type) (sep : String) (v : String) :
    unit_name u ++ ": " ++ v ++ sep = (unit_name u ++ ": ") ++ (v ++ sep) := by
  simp [String.append_assoc]

namespace time_point_m

theorem flat_string_eq (a : time_point_m) (ha : a.wf) :
    a.flat_string =
      .ok (String.join ((unit_order.map (unit_entry a.now_point)).map (· ++ " "))) := by
  simp only [flat_string, to_eq a _ ha, bind, Except.bind, pure, Except.pure,
    tdiv_eq_trunc_quot, unit_order, unit_entry, List.map, String.join, List.foldl]
  rfl

theorem to_string_eq (a : time_point_m) (ha : a.wf) :
    a.to_string =
      .ok (String.join ((unit_order.map (unit_entry a.now_point)).map (· ++ "\n"))) := by
  simp only [to_string, to_eq a _ ha, bind, Except.bind, pure, Except.pure,
    tdiv_eq_trunc_quot, unit_order, unit_entry, List.map, String.join, List.foldl]
  rfl

end time_point_m

theorem digitChar_ne_newline : ∀ d, d < 10 → Nat.digitChar d ≠ '\n' := by
  decide

theorem toDigitsCore_no_newline (fuel n : Nat) (ds : List Char)
    (hds : ∀ c ∈ ds, c ≠ '\n') : ∀ c ∈ Nat.toDigitsCore 10 fuel n ds, c ≠ '\n' := by
  induction fuel generalizing n ds with
  | zero => simpa [Nat.toDigitsCore] using hds
  | succ fuel ih =>
    have hcons : ∀ c ∈ Nat.digitChar (n % 10) :: ds, c ≠ '\n' := by
      intro c hc
      rcases List.mem_cons.mp hc with rfl | hc
      · exact digitChar_ne_newline _ (Nat.mod_lt _ (by decide))
      · exact hds c hc
    simp only [Nat.toDigitsCore]
    split_ifs
    · exact hcons
    · exact ih _ _ hcons

theorem nat_repr_no_newline (n : Nat) : ∀ c ∈ (Nat.repr n).data, c ≠ '\n' := by
  unfold Nat.repr Nat.toDigits
  exact toDigitsCore_no_newline _ _ [] (by simp)

/-- The decimal rendering of a `long long` contains no newline. -/
theorem std_to_string_no_newline (x : Int) : ∀ c ∈ (std_to_string x).data, c ≠ '\n' := by
  unfold std_to_string
  cases x with
  | ofNat m => exact nat_repr_no_newline m
  | negSucc m =>
    intro c hc
    have hc2 : c ∈ ("-" ++ Nat.repr (Nat.succ m)).data := hc
    rw [String.data_append] at hc2
    rcases List.mem_append.mp hc2 with h | h
    · have : c = '-' := by simpa using h
      subst this; decide
    · exact nat_repr_no_newline _ c h

theorem unit_name_no_newline (u : time_type) : ∀ c ∈ (unit_name u ++ ": ").data, c ≠ '\n' := by
  cases u <;> decide

/-- An entry `"<unit-name>: <value>"` contains no newline. -/
theorem unit_entry_no_newline (n : Int) (u : time_type) :
    ∀ c ∈ (unit_entry n u).data, c ≠ '\n' := by
  intro c hc
  unfold unit_entry at hc
  rw [String.data_append] at hc
  rcases List.mem_append.mp hc with h | h
  · exact unit_name_no_newline u c h
  · exact std_to_string_no_newline _ c h

theorem map_newline_id (cs : List Char) (h : ∀ c ∈ cs, c ≠ '\n') :
    cs.map (fun c => if c = '\n' then ' ' else c) = cs := by
  induction cs with
  | nil => rfl
  | cons c cs ih =>
    have hc : c ≠ '\n' := h c (List.mem_cons_self _ _)
    have ht : ∀ d ∈ cs, d ≠ '\n' := fun d hd => h d (List.mem_cons_of_mem _ hd)
    simp [hc, ih ht]

/-- Replacing newlines by spaces in newline-terminated lines that hold no other newline
gives the same lines terminated by a space. -/
theorem newlines_to_spaces_join (ls : List String)
    (h : ∀ l ∈ ls, ∀ c ∈ l.data, c ≠ '\n') :
    newlines_to_spaces (String.join (ls.map (· ++ "\n"))) =
      String.join (ls.map (· ++ " ")) := by
  apply String.ext
  unfold newlines_to_spaces
  rw [String.map_eq]
  simp only [String.data_join, List.map_map]
  induction ls with
  | nil => rfl
  | cons l ls ih =>
    have hl : ∀ c ∈ l.data, c ≠ '\n' := h l (List.mem_cons_self _ _)
    have ht : ∀ m ∈ ls, ∀ c ∈ m.data, c ≠ '\n' :=
      fun m hm => h m (List.mem_cons_of_mem _ hm)
    simp only [List.map_cons, List.flatten_cons, List.map_append, Function.comp_apply,
      String.data_append, ih ht, map_newline_id _ hl]
    rfl

theorem join_space_no_newline (ls : List String)
    (h : ∀ l ∈ ls, ∀ c ∈ l.data, c ≠ '\n') :
    ∀ c ∈ (String.join (ls.map (· ++ " "))).data, c ≠ '\n' := by
  intro c hc
  rw [String.data_join, List.mem_flatten] at hc
  obtain ⟨cs, hcs, hmem⟩ := hc
  simp only [List.map_map, List.mem_map, Function.comp_apply] at hcs
  obtain ⟨l, hl, rfl⟩ := hcs
  rw [String.data_append] at hmem
  rcases List.mem_append.mp hmem with h1 | h1
  · exact h l hl c h1
  · have : c = ' ' := by simpa using h1
    subst this; decide

theorem unit_entries_no_newline (n : Int) :
    ∀ l ∈ unit_order.map (unit_entry n), ∀ c ∈ l.data, c ≠ '\n' := by
  intro l hl
  obtain ⟨u, _, rfl⟩ := List.mem_map.mp hl
  exact unit_entry_no_newline n u

/-- C11: for every instant, `flat_string()` is the concatenation, in this order, of
"nano-seconds: ", "micro-seconds: ", "milli-seconds: ", "seconds: ", "minutes: " and
"hours: ", each followed by the decimal rendering of `to<unit>()` and one space; the string
holds no newline and ends in a space, and for 0 ns it is
"nano-seconds: 0 micro-seconds: 0 milli-seconds: 0 seconds: 0 minutes: 0 hours: 0 ". -/
theorem C11_flat_string (a : time_point_m) (ha : a.wf) :
    (∃ (v : time_type → Int) (s : String),
      (∀ u, a.to_ u = .ok (v u)) ∧ a.flat_string = .ok s ∧
      s = "nano-seconds: " ++ std_to_string (v .nanoseconds) ++ " " ++
          "micro-seconds: " ++ std_to_string (v .microseconds) ++ " " ++
          "milli-seconds: " ++ std_to_string (v .milliseconds) ++ " " ++
          "seconds: " ++ std_to_string (v .seconds) ++ " " ++
          "minutes: " ++ std_to_string (v .minutes) ++ " " ++
          "hours: " ++ std_to_string (v .hours) ++ " " ∧
      (∀ c ∈ s.data, c ≠ '\n') ∧ s.data.getLast? = some ' ') ∧
    (time_point_m.from_nanoseconds 0).flat_string =
      .ok "nano-seconds: 0 micro-seconds: 0 milli-seconds: 0 seconds: 0 minutes: 0 hours: 0 " := by
  have hform : String.join ((unit_order.map (unit_entry a.now_point)).map (· ++ " ")) =
      "nano-seconds: " ++ std_to_string (trunc_quot a.now_point (scale_factor .nanoseconds))
          ++ " " ++
        "micro-seconds: " ++ std_to_string (trunc_quot a.now_point (scale_factor .microseconds))
          ++ " " ++
        "milli-seconds: " ++ std_to_string (trunc_quot a.now_point (scale_factor .milliseconds))
          ++ " " ++
        "seconds: " ++ std_to_string (trunc_quot a.now_point (scale_factor .seconds)) ++ " " ++
        "minutes: " ++ std_to_string (trunc_quot a.now_point (scale_factor .minutes)) ++ " " ++
        "hours: " ++ std_to_string (trunc_quot a.now_point (scale_factor .hours)) ++ " " := by
    simp only [unit_order, unit_entry, unit_name, List.map, String.join, List.foldl,
      String.append_assoc, String.empty_append]
    rfl
  refine ⟨⟨fun u => trunc_quot a.now_point (scale_factor u), _, ?_,
    time_point_m.flat_string_eq a ha, hform,
    join_space_no_newline _ (unit_entries_no_newline a.now_point), ?_⟩, by decide⟩
  · intro u
    rw [time_point_m.to_eq a u ha, tdiv_eq_trunc_quot]
  · rw [hform, String.data_append]
    exact List.getLast?_concat _

theorem C11_flat_string_witness :
    (time_point_m.from_nanoseconds (-3661000000000)).wf ∧
    (∃ (v : time_type → Int) (s : String),
      (∀ u, (time_point_m.from_nanoseconds (-3661000000000)).to_ u = .ok (v u)) ∧
      (time_point_m.from_nanoseconds (-3661000000000)).flat_string = .ok s ∧
      s = "nano-seconds: " ++ std_to_string (v .nanoseconds) ++ " " ++
          "micro-seconds: " ++ std_to_string (v .microseconds) ++ " " ++
          "milli-seconds: " ++ std_to_string (v .milliseconds) ++ " " ++
          "seconds: " ++ std_to_string (v .seconds) ++ " " ++
          "minutes: " ++ std_to_string (v .minutes) ++ " " ++
          "hours: " ++ std_to_string (v .hours) ++ " " ∧
      (∀ c ∈ s.data, c ≠ '\n') ∧ s.data.getLast? = some ' ') :=
  ⟨by decide,
    (C11_flat_string (time_point_m.from_nanoseconds (-3661000000000)) (by decide)).1⟩

/-- C12: for every instant, `to_string()` is six lines, one per unit in the order
nanoseconds, microseconds, milliseconds, seconds, minutes, hours, each of the form
"<unit-name>: <value>" with the decimal rendering of `to<unit>()` and each, the last
included, ended by a newline; and `flat_string()` of the same instant is that string with
every newline replaced by a space. -/
theorem C12_to_string (a : time_point_m) (ha : a.wf) :
    (∃ (v : time_type → Int) (s f : String) (lines : List String),
      (∀ u, a.to_ u = .ok (v u)) ∧ a.to_string = .ok s ∧ a.flat_string = .ok f ∧
      lines = ["nano-seconds: " ++ std_to_string (v .nanoseconds),
               "micro-seconds: " ++ std_to_string (v .microseconds),
               "milli-seconds: " ++ std_to_string (v .milliseconds),
               "seconds: " ++ std_to_string (v .seconds),
               "minutes: " ++ std_to_string (v .minutes),
               "hours: " ++ std_to_string (v .hours)] ∧
      lines.length = 6 ∧ (∀ l ∈ lines, ∀ c ∈ l.data, c ≠ '\n') ∧
      s = String.join (lines.map (· ++ "\n")) ∧
      f = newlines_to_spaces s) ∧
    (time_point_m.from_nanoseconds 3661000000000).to_string = .ok
      "nano-seconds: 3661000000000\nmicro-seconds: 3661000000\nmilli-seconds: 3661000\nseconds: 3661\nminutes: 61\nhours: 1\n" := by
  refine ⟨⟨fun u => trunc_quot a.now_point (scale_factor u), _, _,
    unit_order.map (unit_entry a.now_point), ?_, time_point_m.to_string_eq a ha,
    time_point_m.flat_string_eq a ha, rfl, rfl, unit_entries_no_newline a.now_point, rfl,
    ?_⟩, by decide⟩
  · intro u
    rw [time_point_m.to_eq a u ha, tdiv_eq_trunc_quot]
  · exact (newlines_to_spaces_join _ (unit_entries_no_newline a.now_point)).symm

theorem C12_to_string_witness :
    (time_point_m.from_nanoseconds (-1500)).wf ∧
    (∃ (v : time_type → Int) (s f : String) (lines : List String),
      (∀ u, (time_point_m.from_nanoseconds (-1500)).to_ u = .ok (v u)) ∧
      (time_point_m.from_nanoseconds (-1500)).to_string = .ok s ∧
      (time_point_m.from_nanoseconds (-1500)).flat_string = .ok f ∧
      lines = ["nano-seconds: " ++ std_to_string (v .nanoseconds),
               "micro-seconds: " ++ std_to_string (v .microseconds),
               "milli-seconds: " ++ std_to_string (v .milliseconds),
               "seconds: " ++ std_to_string (v .seconds),
               "minutes: " ++ std_to_string (v .minutes),
               "hours: " ++ std_to_string (v .hours)] ∧
      lines.length = 6 ∧ (∀ l ∈ lines, ∀ c ∈ l.data, c ≠ '\n') ∧
      s = String.join (lines.map (· ++ "\n")) ∧
      f = newlines_to_spaces s) :=
  ⟨by decide, (C12_to_string (time_point_m.from_nanoseconds (-1500)) (by decide)).1⟩

/-! ## Facts on truncating division -/

/-- Two successive truncating divisions by non-negative divisors are one division by the
product. -/
theorem tdiv_tdiv_nonneg (n a b : Int) (ha : 0 ≤ a) (hb : 0 ≤ b) :
    (n.tdiv a).tdiv b = n.tdiv (a * b) := by
  obtain ⟨a, rfl⟩ := Int.eq_ofNat_of_zero_le ha
  obtain ⟨b, rfl⟩ := Int.eq_ofNat_of_zero_le hb
  have key : ∀ m : Nat, ((m : Int).tdiv a).tdiv b = (m : Int).tdiv (a * b) := by
    intro m
    rw [← Int.ofNat_tdiv, ← Int.ofNat_tdiv, ← Int.natCast_mul, ← Int.ofNat_tdiv,
      Nat.div_div_eq_div_mul]
  rcases Int.eq_nat_or_neg n with ⟨m, rfl | rfl⟩
  · exact key m
  · rw [Int.neg_tdiv, Int.neg_tdiv, Int.neg_tdiv, key]

/-- Truncating division by a non-negative divisor is monotone in the dividend. -/
theorem tdiv_mono (x y f : Int) (hf : 0 ≤ f) (h : x ≤ y) : x.tdiv f ≤ y.tdiv f := by
  obtain ⟨f, rfl⟩ := Int.eq_ofNat_of_zero_le hf
  rcases Int.eq_nat_or_neg x with ⟨m, rfl | rfl⟩ <;>
  rcases Int.eq_nat_or_neg y with ⟨k, rfl | rfl⟩
  · rw [← Int.ofNat_tdiv, ← Int.ofNat_tdiv]
    exact_mod_cast Nat.div_le_div_right (by exact_mod_cast h)
  · have hm : m = 0 := by omega
    have hk : k = 0 := by omega
    subst hm; subst hk; simp
  · rw [Int.neg_tdiv, ← Int.ofNat_tdiv, ← Int.ofNat_tdiv]
    have h1 : (0:Int) ≤ ((m / f : Nat) : Int) := Int.ofNat_nonneg _
    have h2 : (0:Int) ≤ ((k / f : Nat) : Int) := Int.ofNat_nonneg _
    omega
  · rw [Int.neg_tdiv, Int.neg_tdiv, ← Int.ofNat_tdiv, ← Int.ofNat_tdiv]
    have : k / f ≤ m / f := Nat.div_le_div_right (by omega)
    omega

/-- C13: the coarser conversions are chained truncations of the finer ones.  For every
signed 64-bit `n`, negative values included, the microsecond count is `n / 1000`, the
millisecond count is the microsecond count over 1000, the second count is the millisecond
count over 1000, the minute count is the second count over 60 and the hour count is the
minute count over 60, every division truncated toward zero. -/
theorem C13_chained_truncation (n : Int) (hn : in_ll n) :
    ∃ ns us ms sec mn hr : Int,
      (time_point_m.from_nanoseconds n).to_ .nanoseconds = .ok ns ∧
      (time_point_m.from_nanoseconds n).to_ .microseconds = .ok us ∧
      (time_point_m.from_nanoseconds n).to_ .milliseconds = .ok ms ∧
      (time_point_m.from_nanoseconds n).to_ .seconds = .ok sec ∧
      (time_point_m.from_nanoseconds n).to_ .minutes = .ok mn ∧
      (time_point_m.from_nanoseconds n).to_ .hours = .ok hr ∧
      ns = n ∧ us = trunc_quot n 1000 ∧ ms = trunc_quot us 1000 ∧
      sec = trunc_quot ms 1000 ∧ mn = trunc_quot sec 60 ∧ hr = trunc_quot mn 60 := by
  have hw : (time_point_m.from_nanoseconds n).wf := hn
  refine ⟨_, _, _, _, _, _, time_point_m.to_nanoseconds _,
    time_point_m.to_eq _ .microseconds hw, time_point_m.to_eq _ .milliseconds hw,
    time_point_m.to_eq _ .seconds hw, time_point_m.to_eq _ .minutes hw,
    time_point_m.to_eq _ .hours hw, rfl, ?_, ?_, ?_, ?_, ?_⟩ <;>
    simp only [← tdiv_eq_trunc_quot, time_point_m.from_nanoseconds, scale_factor]
  · rw [tdiv_tdiv_nonneg _ _ _ (by decide) (by decide)]; rfl
  · rw [tdiv_tdiv_nonneg _ _ _ (by decide) (by decide)]; rfl
  · rw [tdiv_tdiv_nonneg _ _ _ (by decide) (by decide)]; rfl
  · rw [tdiv_tdiv_nonneg _ _ _ (by decide) (by decide)]; rfl

theorem C13_chained_truncation_witness :
    in_ll (-3661999999999) ∧
    (time_point_m.from_nanoseconds (-3661999999999)).to_ .hours = .ok (-1) ∧
    trunc_quot (trunc_quot (trunc_quot (trunc_quot (trunc_quot (-3661999999999) 1000) 1000)
      1000) 60) 60 = -1 := by
  obtain ⟨ns, us, ms, sec, mn, hr, _, _, _, _, _, h6, _, e2, e3, e4, e5, e6⟩ :=
    C13_chained_truncation (-3661999999999) (by decide)
  refine ⟨by decide, by decide, ?_⟩
  rw [← e2, ← e3, ← e4, ← e5, ← e6]
  exact Except.ok.inj (h6.symm.trans (by decide))

/-- C14: unit conversion is monotone for the comparison operators.  For all instants `a`
and `b` and every unit, `a <= b` gives `a.to<unit>() <= b.to<unit>()` and `a == b` gives equal
converted values.  The converse fails for every unit coarser than nanoseconds: 1 ns and 0 ns
convert to the same count although neither `1 ns <= 0 ns` nor `1 ns == 0 ns` holds. -/
theorem C14_conversion_monotone (a b : time_point_m) (ha : a.wf) (hb : b.wf)
    (u : time_type) :
    (∃ va vb : Int, a.to_ u = .ok va ∧ b.to_ u = .ok vb ∧
      (a.operator_le b = true → va ≤ vb) ∧ (a.operator_eq b = true → va = vb)) ∧
    (∀ w : time_type, w ≠ .nanoseconds →
      (time_point_m.from_nanoseconds 1).to_ w = .ok 0 ∧
      (time_point_m.from_nanoseconds 0).to_ w = .ok 0 ∧
      (time_point_m.from_nanoseconds 1).operator_le (time_point_m.from_nanoseconds 0)
        = false ∧
      (time_point_m.from_nanoseconds 1).operator_eq (time_point_m.from_nanoseconds 0)
        = false) := by
  refine ⟨⟨_, _, time_point_m.to_eq a u ha, time_point_m.to_eq b u hb, ?_, ?_⟩, ?_⟩
  · intro hle
    have h : a.now_point ≤ b.now_point := by
      simp only [time_point_m.operator_le, tp_le, tp_lt, Bool.not_eq_true',
        decide_eq_false_iff_not] at hle
      omega
    exact tdiv_mono _ _ _ (scale_factor_pos u).le h
  · intro heq
    have h : a.now_point = b.now_point := by
      simpa only [time_point_m.operator_eq, tp_eq, decide_eq_true_eq] using heq
    rw [h]
  · intro w hw
    cases w
    · exact absurd rfl hw
    all_goals decide

theorem C14_conversion_monotone_witness :
    (time_point_m.from_nanoseconds (-1999)).wf ∧ (time_point_m.from_nanoseconds (-1000)).wf ∧
    (time_point_m.from_nanoseconds (-1999)).operator_le (time_point_m.from_nanoseconds (-1000))
      = true ∧
    (∃ va vb : Int,
      (time_point_m.from_nanoseconds (-1999)).to_ .microseconds = .ok va ∧
      (time_point_m.from_nanoseconds (-1000)).to_ .microseconds = .ok vb ∧ va ≤ vb) := by
  obtain ⟨va, vb, h1, h2, h3, _⟩ :=
    (C14_conversion_monotone (time_point_m.from_nanoseconds (-1999))
      (time_point_m.from_nanoseconds (-1000)) (by decide) (by decide) .microseconds).1
  exact ⟨by decide, by decide, by decide, va, vb, h1, h2, h3 (by decide)⟩

theorem neg_tmod_eq (a b : Int) : (-a).tmod b = -(a.tmod b) := by
  rw [Int.tmod_def, Int.tmod_def, Int.neg_tdiv]; ring

/-- What a truncating division leaves over is smaller in magnitude than the divisor and is
zero or has the sign of the dividend. -/
theorem trunc_remainder (a k : Int) (hk : k ≠ 0) :
    (a - a.tdiv k * k).natAbs < k.natAbs ∧
      (a - a.tdiv k * k = 0 ∨ Int.sign (a - a.tdiv k * k) = Int.sign a) := by
  have hr : a - a.tdiv k * k = a.tmod k := by rw [Int.tmod_def]; ring
  rw [hr]
  have key : ∀ m n : Nat, n ≠ 0 →
      ((m : Int).tmod n).natAbs < n ∧
        ((m : Int).tmod n = 0 ∨ Int.sign ((m : Int).tmod n) = Int.sign (m : Int)) := by
    intro m n hn
    rw [← Int.ofNat_tmod]
    refine ⟨by simpa using Nat.mod_lt m (Nat.pos_of_ne_zero hn), ?_⟩
    by_cases h0 : m % n = 0
    · left; exact_mod_cast h0
    · right
      have hm : m ≠ 0 := by rintro rfl; simp at h0
      rw [Int.sign_ofNat_of_nonzero h0, Int.sign_ofNat_of_nonzero hm]
  rcases Int.eq_nat_or_neg a with ⟨m, rfl | rfl⟩ <;>
  rcases Int.eq_nat_or_neg k with ⟨n, rfl | rfl⟩
  · have hn : n ≠ 0 := by rintro rfl; simp at hk
    simpa using key m n hn
  · have hn : n ≠ 0 := by rintro rfl; simp at hk
    simpa using key m n hn
  · have hn : n ≠ 0 := by rintro rfl; simp at hk
    obtain ⟨h1, h2⟩ := key m n hn
    rw [neg_tmod_eq]
    refine ⟨by simpa using h1, ?_⟩
    rcases h2 with h2 | h2
    · left; rw [h2]; rfl
    · right; rw [Int.sign_neg, Int.sign_neg, h2]
  · have hn : n ≠ 0 := by rintro rfl; simp at hk
    obtain ⟨h1, h2⟩ := key m n hn
    rw [neg_tmod_eq, Int.tmod_neg]
    refine ⟨by simpa using h1, ?_⟩
    rcases h2 with h2 | h2
    · left; rw [h2]; rfl
    · right; rw [Int.sign_neg, Int.sign_neg, h2]

namespace time_point_m

theorem operator_plus_ok (a b : time_point_m) (h : in_ll (a.now_point + b.now_point)) :
    a.operator_plus b = .ok (from_nanoseconds (a.now_point + b.now_point)) := by
  rw [operator_plus_eq, ll_add_ok _ _ h]; rfl

theorem operator_mul_ok (a : time_point_m) (k : Int) (h : in_ll (a.now_point * k)) :
    a.operator_mul k = .ok (from_nanoseconds (a.now_point * k)) := by
  rw [operator_mul_eq, ll_mul_ok _ _ h]; rfl

theorem operator_div_ok (a : time_point_m) (k : Int) (ha : a.wf) (hk : k ≠ 0)
    (hx : ¬ (a.now_point = LLONG_MIN ∧ k = -1)) :
    a.operator_div k = .ok (from_nanoseconds (Int.tdiv a.now_point k)) := by
  rw [operator_div_eq, ll_div_ok _ _ ha hk hx]; rfl

end time_point_m

/-- C15: subtraction and addition undo each other.  When `a.nanos - b.nanos` fits in a
signed 64-bit integer, `(a - b) + b == a`; when `a.nanos + b.nanos` fits, `(a + b) - b == a`;
and `a - a == time_point_m(0)` for every instant `a`. -/
theorem C15_add_sub_inverse (a b : time_point_m) (ha : a.wf) (_hb : b.wf) :
    (in_ll (a.now_point - b.now_point) →
      ∃ d r, a.operator_minus b = .ok d ∧ d.operator_plus b = .ok r ∧
        r.operator_eq a = true) ∧
    (in_ll (a.now_point + b.now_point) →
      ∃ t r, a.operator_plus b = .ok t ∧ t.operator_minus b = .ok r ∧
        r.operator_eq a = true) ∧
    (∃ z, a.operator_minus a = .ok z ∧
      z.operator_eq (time_point_m.from_nanoseconds 0) = true) := by
  refine ⟨?_, ?_, ?_⟩
  · intro hd
    have hback : (a.now_point - b.now_point) + b.now_point = a.now_point := by ring
    have hsum : in_ll ((time_point_m.from_nanoseconds (a.now_point - b.now_point)).now_point
        + b.now_point) := by
      show in_ll ((a.now_point - b.now_point) + b.now_point)
      rw [hback]; exact ha
    refine ⟨_, _, time_point_m.operator_minus_eq a b hd,
      time_point_m.operator_plus_ok _ b hsum, ?_⟩
    simp [time_point_m.operator_eq, tp_eq, time_point_m.from_nanoseconds]
  · intro hs
    have hback : (a.now_point + b.now_point) - b.now_point = a.now_point := by ring
    have hdiff : in_ll ((time_point_m.from_nanoseconds (a.now_point + b.now_point)).now_point
        - b.now_point) := by
      show in_ll ((a.now_point + b.now_point) - b.now_point)
      rw [hback]; exact ha
    refine ⟨_, _, time_point_m.operator_plus_ok a b hs,
      time_point_m.operator_minus_eq _ b hdiff, ?_⟩
    simp [time_point_m.operator_eq, tp_eq, time_point_m.from_nanoseconds]
  · have h0 : in_ll (a.now_point - a.now_point) := by
      rw [sub_self]; decide
    refine ⟨_, time_point_m.operator_minus_eq a a h0, ?_⟩
    simp [time_point_m.operator_eq, tp_eq, time_point_m.from_nanoseconds]

theorem C15_add_sub_inverse_witness :
    (time_point_m.from_nanoseconds LLONG_MIN).wf ∧ (time_point_m.from_nanoseconds (-5)).wf ∧
    in_ll (LLONG_MIN - -5) ∧
    (∃ d r, (time_point_m.from_nanoseconds LLONG_MIN).operator_minus
          (time_point_m.from_nanoseconds (-5)) = .ok d ∧
        d.operator_plus (time_point_m.from_nanoseconds (-5)) = .ok r ∧
        r.operator_eq (time_point_m.from_nanoseconds LLONG_MIN) = true) :=
  ⟨by decide, by decide, by decide,
    (C15_add_sub_inverse (time_point_m.from_nanoseconds LLONG_MIN)
      (time_point_m.from_nanoseconds (-5)) (by decide) (by decide)).1 (by decide)⟩

/-- C16: the sign of a difference agrees with the ordering.  When `a.nanos - b.nanos` fits
in a signed 64-bit integer, the nanosecond value of `a - b` is positive exactly when
`a > b`, zero exactly when `a == b`, and negative exactly when `a < b`. -/
theorem C16_difference_sign (a b : time_point_m) (_ha : a.wf) (_hb : b.wf)
    (hd : in_ll (a.now_point - b.now_point)) :
    ∃ d v, a.operator_minus b = .ok d ∧ d.to_ .nanoseconds = .ok v ∧
      (0 < v ↔ a.operator_gt b = true) ∧
      (v = 0 ↔ a.operator_eq b = true) ∧
      (v < 0 ↔ a.operator_lt b = true) := by
  refine ⟨_, _, time_point_m.operator_minus_eq a b hd, time_point_m.to_nanoseconds _,
    ?_, ?_, ?_⟩ <;>
    simp only [time_point_m.from_nanoseconds, time_point_m.operator_gt,
      time_point_m.operator_eq, time_point_m.operator_lt, tp_gt, tp_lt, tp_eq,
      decide_eq_true_eq] <;>
    omega

theorem C16_difference_sign_witness :
    (time_point_m.from_nanoseconds (-3)).wf ∧ (time_point_m.from_nanoseconds 4).wf ∧
    in_ll (-3 - 4) ∧
    (∃ d v, (time_point_m.from_nanoseconds (-3)).operator_minus
          (time_point_m.from_nanoseconds 4) = .ok d ∧
        d.to_ .nanoseconds = .ok v ∧ v < 0 ∧
        (time_point_m.from_nanoseconds (-3)).operator_lt (time_point_m.from_nanoseconds 4)
          = true) := by
  obtain ⟨d, v, h1, h2, _, _, h5⟩ :=
    C16_difference_sign (time_point_m.from_nanoseconds (-3))
      (time_point_m.from_nanoseconds 4) (by decide) (by decide) (by decide)
  exact ⟨by decide, by decide, by decide, d, v, h1, h2, h5.mpr (by decide), by decide⟩

/-- C17: scaling round trip.  For a non-zero signed 64-bit `k` whose product with `a.nanos`
fits in a signed 64-bit integer, `(a * k) / k == a`; and for a non-zero `k`, the pair
`(-2^63, -1)` excluded, with `q = a / k`, the remainder `a.nanos - q.nanos * k` is smaller in
magnitude than `k` and is zero or has the sign of `a.nanos`. -/
theorem C17_scaling (a : time_point_m) (k : Int) (ha : a.wf) (_hk : in_ll k)
    (hk0 : k ≠ 0) :
    (in_ll (a.now_point * k) →
      ∃ p q, a.operator_mul k = .ok p ∧ p.operator_div k = .ok q ∧
        q.operator_eq a = true) ∧
    (¬ (a.now_point = LLONG_MIN ∧ k = -1) →
      ∃ q, a.operator_div k = .ok q ∧
        (a.now_point - q.now_point * k).natAbs < k.natAbs ∧
        (a.now_point - q.now_point * k = 0 ∨
          Int.sign (a.now_point - q.now_point * k) = Int.sign a.now_point)) := by
  refine ⟨?_, ?_⟩
  · intro hp
    have hx : ¬ ((time_point_m.from_nanoseconds (a.now_point * k)).now_point = LLONG_MIN ∧
        k = -1) := by
      rintro ⟨h1, h2⟩
      have h3 : a.now_point * k = LLONG_MIN := h1
      have h4 := ha
      subst h2
      unfold time_point_m.wf in_ll LLONG_MIN LLONG_MAX at *
      omega
    refine ⟨_, _, time_point_m.operator_mul_ok a k hp,
      time_point_m.operator_div_ok _ k hp hk0 hx, ?_⟩
    simp [time_point_m.operator_eq, tp_eq, time_point_m.from_nanoseconds,
      Int.mul_tdiv_cancel _ hk0]
  · intro hx
    exact ⟨_, time_point_m.operator_div_ok a k ha hk0 hx,
      trunc_remainder a.now_point k hk0⟩

theorem C17_scaling_witness :
    (time_point_m.from_nanoseconds (-100)).wf ∧ in_ll (-3) ∧ (-3 : Int) ≠ 0 ∧
    in_ll (-100 * -3) ∧
    (∃ p q, (time_point_m.from_nanoseconds (-100)).operator_mul (-3) = .ok p ∧
      p.operator_div (-3) = .ok q ∧
      q.operator_eq (time_point_m.from_nanoseconds (-100)) = true) ∧
    (∃ q, (time_point_m.from_nanoseconds (-100)).operator_div (-3) = .ok q ∧
      ((time_point_m.from_nanoseconds (-100)).now_point - q.now_point * -3).natAbs
        < (-3 : Int).natAbs ∧
      ((time_point_m.from_nanoseconds (-100)).now_point - q.now_point * -3 = 0 ∨
        Int.sign ((time_point_m.from_nanoseconds (-100)).now_point - q.now_point * -3) =
          Int.sign (time_point_m.from_nanoseconds (-100)).now_point)) :=
  have h := C17_scaling (time_point_m.from_nanoseconds (-100)) (-3) (by decide) (by decide)
    (by decide)
  ⟨by decide, by decide, by decide, by decide, h.1 (by decide), h.2 (by decide)⟩

/-! ## Compound assignment on objects -/

namespace time_point_m

theorem store_same (mem : Memory) (p : Nat) (v : time_point_m) : mem.store p v p = v := by
  simp [Memory.store]

theorem store_other (mem : Memory) (p q : Nat) (v : time_point_m) (h : q ≠ p) :
    mem.store p v q = mem q := by
  simp [Memory.store, h]

/-- On objects, `operator+=` is the operator on the two values read, stored at `this`. -/
theorem operator_plus_assign_at_eq (mem : Memory) (this other : Nat) :
    operator_plus_assign_at mem this other =
      (operator_plus_assign (mem this) (mem other)).map
        (fun r => (mem.store this r.1, r.2)) := by
  simp only [operator_plus_assign_at, operator_plus_assign, duration_cast_nanoseconds, bind,
    Except.bind, pure, Except.pure, store_same]
  cases ll_sub (mem this).now_point (mem other).now_point with
  | error e => rfl
  | ok d =>
    dsimp only
    cases ll_div d million <;> rfl

/-- On objects, `operator-=` is the operator on the two values read, stored at `this`. -/
theorem operator_minus_assign_at_eq (mem : Memory) (this other : Nat) :
    operator_minus_assign_at mem this other =
      (operator_minus_assign (mem this) (mem other)).map
        (fun r => (mem.store this r.1, r.2)) := by
  simp only [operator_minus_assign_at, operator_minus_assign, duration_cast_nanoseconds, bind,
    Except.bind, pure, Except.pure, store_same]
  cases ll_sub (mem this).now_point (mem other).now_point <;> rfl

theorem operator_plus_assign_ok (a b : time_point_m)
    (h : in_ll (a.now_point - b.now_point)) :
    a.operator_plus_assign b =
      .ok (from_nanoseconds (Int.tdiv (a.now_point - b.now_point) million),
        from_nanoseconds (Int.tdiv (a.now_point - b.now_point) million)) := by
  have hm : million ≠ 0 := by decide
  have hm1 : ¬ million = -1 := by decide
  rw [operator_plus_assign_eq, ll_sub_ok _ _ h]
  show Except.map _ (ll_div (a.now_point - b.now_point) million) = _
  rw [ll_div_ok _ million h hm (fun h => hm1 h.2)]; rfl

end time_point_m

/-- C18: the compound operators change only their left operand and return its new value.
When `a.nanos - b.nanos` fits in a signed 64-bit integer, after `a += b` and after `a -= b`
the returned instant is the updated `a`, every other object keeps its value, `b` included
when it is a distinct object; and when `b` is `a` itself both operands are read before the
store, so `a += a` and `a -= a` each leave `a` equal to `time_point_m(0)`. -/
theorem C18_compound_frame (mem : time_point_m.Memory) (this other : Nat)
    (_ha : (mem this).wf) (_hb : (mem other).wf)
    (hd : in_ll ((mem this).now_point - (mem other).now_point)) :
    (∃ mem2 ret, time_point_m.operator_plus_assign_at mem this other = .ok (mem2, ret) ∧
      ret = mem2 this ∧
      mem2 this = time_point_m.from_nanoseconds
        (trunc_quot ((mem this).now_point - (mem other).now_point) 1000000) ∧
      (∀ p, p ≠ this → mem2 p = mem p) ∧ (other ≠ this → mem2 other = mem other)) ∧
    (∃ mem2 ret, time_point_m.operator_minus_assign_at mem this other = .ok (mem2, ret) ∧
      ret = mem2 this ∧
      mem2 this = time_point_m.from_nanoseconds
        ((mem this).now_point - (mem other).now_point) ∧
      (∀ p, p ≠ this → mem2 p = mem p) ∧ (other ≠ this → mem2 other = mem other)) ∧
    (∃ mem2 ret, time_point_m.operator_plus_assign_at mem this this = .ok (mem2, ret) ∧
      ret = time_point_m.from_nanoseconds 0 ∧
      mem2 this = time_point_m.from_nanoseconds 0 ∧ (∀ p, p ≠ this → mem2 p = mem p)) ∧
    (∃ mem2 ret, time_point_m.operator_minus_assign_at mem this this = .ok (mem2, ret) ∧
      ret = time_point_m.from_nanoseconds 0 ∧
      mem2 this = time_point_m.from_nanoseconds 0 ∧ (∀ p, p ≠ this → mem2 p = mem p)) := by
  have h0 : in_ll ((mem this).now_point - (mem this).now_point) := by
    rw [sub_self]; decide
  have hz : Int.tdiv 0 time_point_m.million = 0 := by decide
  have frame : ∀ v : time_point_m, ∀ p, p ≠ this → mem.store this v p = mem p :=
    fun v p hp => time_point_m.store_other mem this p v hp
  refine ⟨?_, ?_, ?_, ?_⟩
  · refine ⟨mem.store this (time_point_m.from_nanoseconds
        (Int.tdiv ((mem this).now_point - (mem other).now_point) time_point_m.million)),
      time_point_m.from_nanoseconds
        (Int.tdiv ((mem this).now_point - (mem other).now_point) time_point_m.million),
      ?_, (time_point_m.store_same _ _ _).symm, ?_, frame _, frame _ other⟩
    · rw [time_point_m.operator_plus_assign_at_eq,
        time_point_m.operator_plus_assign_ok _ _ hd]; rfl
    · rw [time_point_m.store_same, tdiv_eq_trunc_quot]; rfl
  · refine ⟨mem.store this (time_point_m.from_nanoseconds
        ((mem this).now_point - (mem other).now_point)),
      time_point_m.from_nanoseconds ((mem this).now_point - (mem other).now_point),
      ?_, (time_point_m.store_same _ _ _).symm, time_point_m.store_same _ _ _,
      frame _, frame _ other⟩
    rw [time_point_m.operator_minus_assign_at_eq,
      time_point_m.operator_minus_assign_eq _ _ hd]; rfl
  · refine ⟨mem.store this (time_point_m.from_nanoseconds 0),
      time_point_m.from_nanoseconds 0, ?_, rfl, time_point_m.store_same _ _ _, frame _⟩
    rw [time_point_m.operator_plus_assign_at_eq,
      time_point_m.operator_plus_assign_ok _ _ h0, sub_self, hz]; rfl
  · refine ⟨mem.store this (time_point_m.from_nanoseconds 0),
      time_point_m.from_nanoseconds 0, ?_, rfl, time_point_m.store_same _ _ _, frame _⟩
    rw [time_point_m.operator_minus_assign_at_eq,
      time_point_m.operator_minus_assign_eq _ _ h0, sub_self]; rfl

theorem C18_compound_frame_witness :
    ((fun p => if p = 0 then time_point_m.from_nanoseconds 7000000
        else if p = 1 then time_point_m.from_nanoseconds 2000000
        else time_point_m.from_nanoseconds 9 : time_point_m.Memory) 0).wf ∧
    ((fun p => if p = 0 then time_point_m.from_nanoseconds 7000000
        else if p = 1 then time_point_m.from_nanoseconds 2000000
        else time_point_m.from_nanoseconds 9 : time_point_m.Memory) 1).wf ∧
    in_ll (7000000 - 2000000) ∧
    (∃ mem2 ret, time_point_m.operator_plus_assign_at
        (fun p => if p = 0 then time_point_m.from_nanoseconds 7000000
          else if p = 1 then time_point_m.from_nanoseconds 2000000
          else time_point_m.from_nanoseconds 9) 0 1 = .ok (mem2, ret) ∧
      ret = mem2 0 ∧ mem2 0 = time_point_m.from_nanoseconds 5 ∧
      mem2 1 = time_point_m.from_nanoseconds 2000000) := by
  obtain ⟨mem2, ret, h1, h2, h3, _, h5⟩ :=
    (C18_compound_frame
      (fun p => if p = 0 then time_point_m.from_nanoseconds 7000000
        else if p = 1 then time_point_m.from_nanoseconds 2000000
        else time_point_m.from_nanoseconds 9) 0 1 (by decide) (by decide) (by decide)).1
  exact ⟨by decide, by decide, by decide, mem2, ret, h1, h2, h3.trans (by decide),
    (h5 (by decide)).trans (by decide)⟩

end et
